import Mathlib

/-!
Verification of the Openlibrary provider adapter
(`apps/backend/src/providers/openlibrary.rs`).

The Rust code is shallowly embedded: every network fetch is abstracted as an
`Except String _` input (the decoded payload on success, the transport or
decode error otherwise), library string helpers (`str::split`, `str::trim`)
are modelled by structural recursions on `List Char` with the same semantics,
`chrono::NaiveDate::parse_from_str` is kept abstract as a parameter
`parse_from_str : String -> String -> Option NaiveDate`, and a Rust panic
(`Option::unwrap` on `None`) is modelled by an explicit `none` / `panicked`
outcome.  All definitions are executable so that theorems can be checked on
concrete inputs.
-/

/-- Models Rust `str::split(sep)` for a one-character pattern, acting on the
underlying character list.  Like the Rust iterator it always yields at least
one (possibly empty) segment, and adjacent separators yield empty segments. -/
def splitChar (sep : Char) : List Char → List (List Char)
  | [] => [[]]
  | c :: rest =>
    if c = sep then [] :: splitChar sep rest
    else
      match splitChar sep rest with
      | [] => [[c]]
      | s :: ss => (c :: s) :: ss

/-- Embeds `get_key` (openlibrary.rs lines 455-462):
`key.split('/').collect_vec().last().cloned().unwrap()`.
The `none` branch models the `.unwrap()` panic; it is proven unreachable. -/
def get_key (key : String) : String :=
  match (splitChar '/' key.data).getLast? with
  | some s => ⟨s⟩
  | none => ""

/-- Models Rust `str::trim` (whitespace stripped from both ends). -/
def trimChars (l : List Char) : List Char :=
  ((l.dropWhile Char.isWhitespace).reverse.dropWhile Char.isWhitespace).reverse

/-- Models `n.split(" by ").next().unwrap()` (openlibrary.rs lines 271-275):
the text before the first occurrence of the separator `" by "`, or the whole
string when the separator does not occur.  The split iterator always yields a
first element, so the `unwrap` there cannot panic. -/
def takeBeforeBy : List Char → List Char
  | [] => []
  | ' ' :: 'b' :: 'y' :: ' ' :: _ => []
  | c :: rest => c :: takeBeforeBy rest

/-- Models Rust `str::split(", ")` (used on subject strings, line 226):
structural left-to-right scan for the two-character separator. -/
def splitCommaSpace : List Char → List (List Char)
  | [] => [[]]
  | ',' :: ' ' :: rest => [] :: splitCommaSpace rest
  | c :: rest =>
    match splitCommaSpace rest with
    | [] => [[c]]
    | s :: ss => (c :: s) :: ss

/-- Models `Itertools::unique` (first occurrence of every value is kept, in
encounter order), written with an explicit `seen` accumulator exactly like the
hash-set based iterator adapter. -/
def uniqueAux {α : Type} [DecidableEq α] (seen : List α) : List α → List α
  | [] => []
  | x :: xs => if x ∈ seen then uniqueAux seen xs else x :: uniqueAux (x :: seen) xs

/-- `Itertools::unique` on a whole list. -/
def unique {α : Type} [DecidableEq α] (l : List α) : List α :=
  uniqueAux [] l

/-- Models `chrono::NaiveDate` as a plain calendar date record.  `chrono`
orders dates chronologically, which for the dates it constructs coincides
with lexicographic order on (year, month, day). -/
structure NaiveDate where
  year : Int
  month : Nat
  day : Nat
deriving DecidableEq, Repr

/-- Chronological order on `NaiveDate` (the `Ord` instance used by
`Iterator::min` in the Rust code). -/
def dateLe (a b : NaiveDate) : Bool :=
  decide (a.year < b.year ∨ (a.year = b.year ∧
    (a.month < b.month ∨ (a.month = b.month ∧ a.day ≤ b.day))))

/-- Models `Iterator::min` over `NaiveDate`s: `none` on an empty iterator,
otherwise the least element. -/
def iterMin : List NaiveDate → Option NaiveDate
  | [] => none
  | d :: rest =>
    match iterMin rest with
    | none => some d
    | some m => some (if dateLe d m then d else m)

/-- The opaque key wrapper `OpenlibraryKey` (lines 50-53). -/
structure OpenlibraryKey where
  key : String
deriving DecidableEq, Repr

/-- The nested author reference `OpenlibraryAuthor` (lines 88-93): a key plus
an optional role key. -/
structure OpenlibraryAuthor where
  author : OpenlibraryKey
  role : Option OpenlibraryKey
deriving DecidableEq, Repr

/-- The untagged author reference `OpenlibraryAuthorResponse` (lines 94-99):
either a bare key or a nested object with key and optional role. -/
inductive OpenlibraryAuthorResponse where
  | Flat (s : OpenlibraryKey)
  | Nested (s : OpenlibraryAuthor)
deriving DecidableEq, Repr

/-- The untagged description `OpenlibraryDescription` (lines 100-109). -/
inductive OpenlibraryDescription where
  | Text (s : String)
  | Nested (key : String) (value : String)
deriving DecidableEq, Repr

/-- The decoded work record `OpenlibraryBook` (lines 110-118). -/
structure OpenlibraryBook where
  key : String
  description : Option OpenlibraryDescription
  title : String
  covers : Option (List Int)
  authors : Option (List OpenlibraryAuthorResponse)
  subjects : Option (List String)
deriving DecidableEq, Repr

/-- The decoded edition record `OpenlibraryEdition` (lines 129-134). -/
structure OpenlibraryEdition where
  publish_date : Option String
  number_of_pages : Option Int
  covers : Option (List Int)
deriving DecidableEq, Repr

/-- The decoded editions list `OpenlibraryEditionsResponse` (lines 135-138). -/
structure OpenlibraryEditionsResponse where
  entries : Option (List OpenlibraryEdition)
deriving DecidableEq, Repr

/-- The decoded author payload (source struct `OpenlibraryAuthorPartial`,
lines 163-167): display name and optional photo identifiers. -/
structure OpenlibraryAuthorPartialData where
  name : String
  photos : Option (List Int)
deriving DecidableEq, Repr

/-- Modelled from the spec: media category tag (section 3); only the `Book`
variant is used by this adapter (enum defined in the migrator module, not
under src/). -/
inductive MetadataLot where
  | Book
deriving DecidableEq, Repr

/-- Modelled from the spec: source tag (section 3); only `Openlibrary` is used
here (enum defined in the migrator module, not under src/). -/
inductive MetadataSource where
  | Openlibrary
deriving DecidableEq, Repr

/-- Modelled from the spec: stored URL value (section 3); the adapter always
constructs the pre-resolved `Url` variant (type defined in the models module,
not under src/). -/
inductive StoredUrl where
  | Url (s : String)
deriving DecidableEq, Repr

/-- Modelled from the spec: image purpose tag (section 3); the adapter always
uses `Poster`. -/
inductive MetadataImageLot where
  | Poster
deriving DecidableEq, Repr

/-- Modelled from the spec: MetadataImage, a URL plus a purpose tag
(section 3).  Equality is structural, which is what the derived `Eq`/`Hash`
used by `Itertools::unique` compares. -/
structure MetadataImage where
  url : StoredUrl
  lot : MetadataImageLot
deriving DecidableEq, Repr

/-- Modelled from the spec: MetadataCreator — name, free-text role, optional
image URL (section 3). -/
structure MetadataCreator where
  name : String
  role : String
  image : Option String
deriving DecidableEq, Repr

/-- Modelled from the spec: PartialMetadata, a forward reference to a related
work (section 3). -/
structure PartialMetadata where
  title : String
  image : Option String
  identifier : String
  lot : MetadataLot
  source : MetadataSource
deriving DecidableEq, Repr

/-- Modelled from the spec: book-specific payload — optional page count
(section 3). -/
structure BookSpecifics where
  pages : Option Int
deriving DecidableEq, Repr

/-- Modelled from the spec: lot-specific payload; only the book variant is
produced by this adapter. -/
inductive MediaSpecifics where
  | Book (b : BookSpecifics)
deriving DecidableEq, Repr

/-- Modelled from the spec: the canonical MediaDetails record (section 3);
field shapes follow their construction site in `details`
(openlibrary.rs lines 291-311).  `provider_rating`, `videos` and `groups` are
always `none` / empty in this adapter, so their element types are opaque
placeholders. -/
structure MediaDetails where
  identifier : String
  title : String
  production_status : String
  description : Option String
  lot : MetadataLot
  source : MetadataSource
  creators : List MetadataCreator
  genres : List String
  images : List MetadataImage
  publish_year : Option Int
  specifics : MediaSpecifics
  suggestions : List PartialMetadata
  publish_date : Option NaiveDate
  provider_rating : Option Int
  videos : List String
  groups : List String
  is_nsfw : Option Bool
deriving DecidableEq, Repr

/-- Modelled from the spec: search pagination details (section 3). -/
structure SearchDetails where
  total : Int
  next_page : Option Int
deriving DecidableEq, Repr

/-- Modelled from the spec: generic search results (section 3). -/
structure SearchResults (α : Type) where
  details : SearchDetails
  items : List α
deriving DecidableEq, Repr

/-- Modelled from the spec: the lightweight search projection (section 3). -/
structure MediaSearchItem where
  identifier : String
  title : String
  image : Option String
  publish_year : Option Int
deriving DecidableEq, Repr

/-- The intermediate search item `BookSearchItem` (lines 37-48). -/
structure BookSearchItem where
  identifier : String
  title : String
  description : Option String
  author_names : List String
  genres : List String
  images : List String
  publish_year : Option Int
  publish_date : Option NaiveDate
  book_specifics : BookSpecifics
deriving DecidableEq, Repr

/-- The intermediate search results `BookSearchResults` (lines 31-35). -/
structure BookSearchResults where
  total : Int
  items : List BookSearchItem
deriving DecidableEq, Repr

/-- The service value (lines 55-61); the HTTP client is abstracted away, the
configuration fields are kept. -/
structure OpenlibraryService where
  image_url : String
  image_size : String
  page_limit : Int
deriving DecidableEq, Repr

/-- One matched `.book.carousel__item` element of the related-works HTML
fragment, abstracted to the three attribute lookups the extractor performs on
it (lines 256-280): the `href` of its first `a[href]` anchor, and the `alt`
and `src` of its first `img.bookcover` image. -/
structure CarouselItem where
  href : Option String
  alt : Option String
  src : Option String
deriving DecidableEq, Repr

/-- Outcome of running `details`: a returned value, a returned error, or a
Rust panic. -/
inductive RunResult (α : Type) where
  | ok (value : α)
  | err (e : String)
  | panicked
deriving DecidableEq, Repr

/-- `true` exactly on the `ok` outcome. -/
def RunResult.isOkB {α : Type} : RunResult α → Bool
  | .ok _ => true
  | _ => false

/-- The decoded ISBN lookup payload (struct `Response`, lines 446-449). -/
structure OpenlibraryIsbnResponse where
  works : List OpenlibraryKey
deriving DecidableEq, Repr

/-- The search response payload `OpenLibrarySearchResponse` together with its
per-document struct (lines 321-335; the Rust code names the local document
struct `OpenlibraryBook`, shadowing the one in `details`). -/
structure OpenlibrarySearchDoc where
  key : String
  title : String
  author_name : Option (List String)
  cover_i : Option Int
  publish_year : Option (List Int)
  first_publish_year : Option Int
  number_of_pages_median : Option Int
deriving DecidableEq, Repr

structure OpenLibrarySearchResponse where
  num_found : Int
  docs : List OpenlibrarySearchDoc
deriving DecidableEq, Repr

namespace OpenlibraryService

/-- Embeds `get_cover_image_url` (lines 415-420): the `format!` template
`"{image_url}/{t}/id/{c}-{image_size}.jpg?default=false"` written as string
concatenation. -/
def get_cover_image_url (self : OpenlibraryService) (t : String) (c : Int) : String :=
  self.image_url ++ "/" ++ t ++ "/id/" ++ toString c ++ "-" ++ self.image_size
    ++ ".jpg?default=false"

/-- Embeds `get_book_cover_image_url` (lines 407-409). -/
def get_book_cover_image_url (self : OpenlibraryService) (c : Int) : String :=
  self.get_cover_image_url "b" c

/-- Embeds `get_author_cover_image_url` (lines 411-413). -/
def get_author_cover_image_url (self : OpenlibraryService) (c : Int) : String :=
  self.get_cover_image_url "a" c

/-- The ordered date format list of `parse_date` (line 423). -/
def dateFormats : List String :=
  ["%b %d, %Y", "%Y", "%b %d, %Y"]

/-- The format loop of `parse_date` (lines 424-428): return the first
successful parse. -/
def firstParse (parse_from_str : String → String → Option NaiveDate)
    (input : String) : List String → Option NaiveDate
  | [] => none
  | f :: fs =>
    match parse_from_str input f with
    | some date => some date
    | none => firstParse parse_from_str input fs

/-- Embeds `parse_date` (lines 422-430), parameterized by the external
`chrono::NaiveDate::parse_from_str` primitive. -/
def parse_date (parse_from_str : String → String → Option NaiveDate)
    (input : String) : Option NaiveDate :=
  firstParse parse_from_str input dateFormats

end OpenlibraryService

/-- The author reference match in `details` (lines 170-179): a bare key
carries the default role `"Author"`; a nested object carries its own role key
when present, else the default. -/
def author_key_role : OpenlibraryAuthorResponse → String × String
  | .Flat s => (s.key, "Author")
  | .Nested s => (s.author.key, (s.role.map (fun r => r.key)).getD "Author")

namespace OpenlibraryService

/-- The per-author fan-out loop of `details` (lines 168-195): for each decoded
author reference, fetch the author payload (`author_rsp` abstracts the
`{key}.json` fetch and decode) and accumulate a `MetadataCreator` in source
order; the first failing fetch aborts with its error. -/
def fetch_creators (self : OpenlibraryService)
    (author_rsp : String → Except String OpenlibraryAuthorPartialData) :
    List OpenlibraryAuthorResponse → Except String (List MetadataCreator)
  | [] => .ok []
  | a :: rest =>
    let kr := author_key_role a
    match author_rsp kr.1 with
    | .error e => .error e
    | .ok ap =>
      let image := (((ap.photos.getD []).filter (fun c => decide (0 < c))).head?).map
        (fun i => self.get_author_cover_image_url i)
      match fetch_creators self author_rsp rest with
      | .error e => .error e
      | .ok cs => .ok ({ name := ap.name, role := kr.2, image := image } :: cs)

end OpenlibraryService

/-- The description decode in `details` (lines 196-199): plain text, or the
`value` of the nested form with its type tag discarded. -/
def descriptionOf : Option OpenlibraryDescription → Option String :=
  Option.map fun d =>
    match d with
    | .Text s => s
    | .Nested _ value => value

/-- The page-count aggregation of `details` (lines 148-156): the truncating
`i32` mean of the page counts the editions report, `0` when none do. -/
def num_pages (entries : List OpenlibraryEdition) : Int :=
  let all_pages := entries.filterMap (fun f => f.number_of_pages)
  if all_pages.isEmpty then 0
  else Int.tdiv all_pages.sum (all_pages.length : Int)

/-- The release-date aggregation of `details` (lines 157-161): minimum of the
successfully parsed publish dates across editions. -/
def first_release_date (parse_from_str : String → String → Option NaiveDate)
    (entries : List OpenlibraryEdition) : Option NaiveDate :=
  iterMin ((entries.filterMap (fun f => f.publish_date)).filterMap
    (OpenlibraryService.parse_date parse_from_str))

namespace OpenlibraryService

/-- The image pipeline of `details` up to deduplication (lines 201-218): work
covers, then all edition covers, filtered to positive identifiers, mapped to
poster images with synthesized URLs. -/
def image_candidates (self : OpenlibraryService) (data : OpenlibraryBook)
    (entries : List OpenlibraryEdition) : List MetadataImage :=
  let images := data.covers.getD [] ++ entries.flatMap (fun e => e.covers.getD [])
  (images.filter (fun c => decide (0 < c))).map (fun c =>
    { url := StoredUrl.Url (self.get_book_cover_image_url c),
      lot := MetadataImageLot.Poster })

/-- The image collection of `details` (lines 201-220): the candidate list
deduplicated with `Itertools::unique`. -/
def collect_images (self : OpenlibraryService) (data : OpenlibraryBook)
    (entries : List OpenlibraryEdition) : List MetadataImage :=
  unique (self.image_candidates data entries)

end OpenlibraryService

/-- The genre decode of `details` (lines 222-227): split each subject string
on `", "`, title-case every token (the external `convert_case` library is
kept abstract as `to_title_case`), and flatten. -/
def genresOf (to_title_case : String → String) (subjects : List String) : List String :=
  subjects.flatMap (fun s => (splitCommaSpace s.data).map (fun t => to_title_case ⟨t⟩))

/-- The related-works extraction loop of `details` (lines 248-289) on the
matched carousel items.  `none` models a panic: the code unwraps the first
anchor `href` of every item before anything else, so an item without one
crashes the call.  An item whose image tag (or its `alt`) is missing is
skipped; otherwise the title is the trimmed text before `" by "` in the
`alt`, and the image is the optional `src`. -/
def extract_suggestions : List CarouselItem → Option (List PartialMetadata)
  | [] => some []
  | item :: rest =>
    match item.href with
    | none => none
    | some href =>
      let identifier := get_key href
      match extract_suggestions rest with
      | none => none
      | some tail =>
        match item.alt with
        | none => some tail
        | some n =>
          let name : String := ⟨trimChars (takeBeforeBy n.data)⟩
          some ({ title := name, image := item.src, identifier := identifier,
                  lot := MetadataLot.Book, source := MetadataSource.Openlibrary } :: tail)

namespace OpenlibraryService

/-- Embeds `details` (lines 87-312) as a pure function of its decoded fetch
outcomes.  `work_rsp`, `editions_rsp`, `author_rsp` and `partials_rsp`
abstract the four (families of) HTTP fetches together with their JSON
decoding; `parse_carousel` abstracts `scraper`s parsing of the fetched HTML
fragment into the matched `.book.carousel__item` elements.  Every fetch or
decode failure is propagated with `?` in the source, which the nested
`Except` matches reproduce; the related-works extraction may panic
(`RunResult.panicked`). -/
def details (self : OpenlibraryService)
    (parse_from_str : String → String → Option NaiveDate)
    (to_title_case : String → String)
    (parse_carousel : String → List CarouselItem)
    (work_rsp : Except String OpenlibraryBook)
    (editions_rsp : Except String OpenlibraryEditionsResponse)
    (author_rsp : String → Except String OpenlibraryAuthorPartialData)
    (partials_rsp : Except String String) : RunResult MediaDetails :=
  match work_rsp with
  | .error e => .err e
  | .ok data =>
    match editions_rsp with
    | .error e => .err e
    | .ok editions =>
      let entries := editions.entries.getD []
      match self.fetch_creators author_rsp (data.authors.getD []) with
      | .error e => .err e
      | .ok creators =>
        match partials_rsp with
        | .error e => .err e
        | .ok html =>
          match extract_suggestions (parse_carousel html) with
          | none => .panicked
          | some suggestions =>
            .ok {
              identifier := get_key data.key,
              title := data.title,
              production_status := "Released",
              description := descriptionOf data.description,
              lot := MetadataLot.Book,
              source := MetadataSource.Openlibrary,
              creators := creators,
              genres := genresOf to_title_case (data.subjects.getD []),
              images := self.collect_images data entries,
              publish_year := (first_release_date parse_from_str entries).map
                (fun d => d.year),
              specifics := MediaSpecifics.Book { pages := some (num_pages entries) },
              suggestions := suggestions,
              publish_date := none,
              provider_rating := none,
              videos := [],
              groups := [],
              is_nsfw := none }

/-- Embeds `search` (lines 314-403) as a pure function of the decoded search
response.  `page` defaults to `1`; the fetched documents are projected to
`MediaSearchItem`s (first image only); `next_page` is computed from the
source-reported total and the configured page limit. -/
def search (self : OpenlibraryService) (page? : Option Int)
    (rsp : Except String OpenLibrarySearchResponse) :
    Except String (SearchResults MediaSearchItem) :=
  let page := page?.getD 1
  match rsp with
  | .error e => .error e
  | .ok found =>
    let resp : List BookSearchItem := found.docs.map (fun d =>
      { identifier := get_key d.key,
        title := d.title,
        description := none,
        author_names := d.author_name.getD [],
        genres := [],
        publish_year := d.first_publish_year,
        publish_date := none,
        book_specifics := { pages := d.number_of_pages_median },
        images := (d.cover_i.map (fun f => self.get_book_cover_image_url f)).toList })
    let data : BookSearchResults := { total := found.num_found, items := resp }
    let next_page := if found.num_found - page * self.page_limit > 0
      then some (page + 1) else none
    .ok {
      details := { total := data.total, next_page := next_page },
      items := data.items.map (fun b =>
        { identifier := b.identifier,
          title := b.title,
          image := b.images.head?,
          publish_year := b.publish_year }) }

/-- Embeds `id_from_isbn` (lines 432-452) as a pure function of the decoded
fetch outcome: every transport or decode failure is swallowed by `.ok()?`
into `none`, and on success the first associated work key is reduced to its
canonical identifier, `none` when the works list is empty. -/
def id_from_isbn (rsp : Except String OpenlibraryIsbnResponse) : Option String :=
  match rsp with
  | .error _ => none
  | .ok found => (found.works.head?).map (fun k => get_key k.key)

end OpenlibraryService

/-! ### Concrete fixtures used by witnesses and counterexamples -/

/-- A concrete service configuration (public base image URL, medium cover
size, page limit 20). -/
def svc0 : OpenlibraryService :=
  { image_url := "https://covers.openlibrary.org", image_size := "M", page_limit := 20 }

/-- A concrete stand-in for `chrono::NaiveDate::parse_from_str` that parses
exactly the string `"Jan 1, 1950"` under the `"%b %d, %Y"` format. -/
def primJan : String → String → Option NaiveDate := fun input fmt =>
  if input = "Jan 1, 1950" ∧ fmt = "%b %d, %Y" then
    some { year := 1950, month := 1, day := 1 }
  else none

/-- A concrete decoded work record with two duplicated and one non-positive
cover identifiers and no authors. -/
def work0 : OpenlibraryBook :=
  { key := "/works/OL45883W", description := none, title := "The Wonderful Wizard of Oz",
    covers := some [5, -3, 5], authors := none, subjects := none }

/-- Two concrete editions: page counts 300 and 320, publish dates
`"Jan 1, 1950"` and `"1951"`, one extra cover. -/
def eds0 : OpenlibraryEditionsResponse :=
  { entries := some [
      { publish_date := some "Jan 1, 1950", number_of_pages := some 300, covers := some [7] },
      { publish_date := some "1951", number_of_pages := some 320, covers := none }] }

/-- An author-fetch oracle that is never consulted (the fixture work has no
authors). -/
def afetch0 : String → Except String OpenlibraryAuthorPartialData := fun _ =>
  Except.error "unused"

/-- A carousel parse yielding no matched items. -/
def parse0 : String → List CarouselItem := fun _ => []

/-- The `MediaDetails` value that `details` produces from the fixtures above
with every fetch succeeding. -/
def md1 : MediaDetails :=
  { identifier := "OL45883W",
    title := "The Wonderful Wizard of Oz",
    production_status := "Released",
    description := none,
    lot := MetadataLot.Book,
    source := MetadataSource.Openlibrary,
    creators := [],
    genres := [],
    images := [{ url := StoredUrl.Url "https://covers.openlibrary.org/b/id/5-M.jpg?default=false",
                 lot := MetadataImageLot.Poster },
               { url := StoredUrl.Url "https://covers.openlibrary.org/b/id/7-M.jpg?default=false",
                 lot := MetadataImageLot.Poster }],
    publish_year := some 1950,
    specifics := MediaSpecifics.Book { pages := some 310 },
    suggestions := [],
    publish_date := none,
    provider_rating := none,
    videos := [],
    groups := [],
    is_nsfw := none }

/-- A concrete search response: 45 reported results, one returned document. -/
def rsp0 : OpenLibrarySearchResponse :=
  { num_found := 45,
    docs := [{ key := "/works/OL45883W", title := "The Wonderful Wizard of Oz",
               author_name := some ["L. Frank Baum"], cover_i := some 5,
               publish_year := none, first_publish_year := some 1900,
               number_of_pages_median := some 154 }] }

/-- The `SearchResults` value that `search` produces from `rsp0` at page 2. -/
def r0 : SearchResults MediaSearchItem :=
  { details := { total := 45, next_page := some 3 },
    items := [{ identifier := "OL45883W",
                title := "The Wonderful Wizard of Oz",
                image := some "https://covers.openlibrary.org/b/id/5-M.jpg?default=false",
                publish_year := some 1900 }] }

/-! ### Helper lemmas about the modelled library primitives -/

theorem splitChar_ne_nil (sep : Char) (l : List Char) : splitChar sep l ≠ [] := by
  induction l with
  | nil => simp [splitChar]
  | cons c rest ih =>
    simp only [splitChar]
    by_cases h : c = sep
    · simp [h]
    · simp only [h, if_false]
      cases hs : splitChar sep rest with
      | nil => simp
      | cons s ss => simp

theorem getLast?_cons_of_ne_nil {α : Type} (a : α) {l : List α} (h : l ≠ []) :
    (a :: l).getLast? = l.getLast? := by
  cases l with
  | nil => exact absurd rfl h
  | cons b t => exact List.getLast?_cons_cons

theorem splitChar_length_eq_one_iff (sep : Char) (l : List Char) :
    (splitChar sep l).length = 1 ↔ sep ∉ l := by
  induction l with
  | nil => simp [splitChar]
  | cons c rest ih =>
    by_cases h : c = sep
    · subst h
      have h1 : 0 < (splitChar c rest).length :=
        List.length_pos.mpr (splitChar_ne_nil c rest)
      have hstep : splitChar c (c :: rest) = [] :: splitChar c rest := by
        simp [splitChar]
      rw [hstep]
      refine iff_of_false (fun hlen => ?_) (by simp)
      rw [List.length_cons] at hlen
      omega
    · simp only [splitChar, if_neg h]
      cases hs : splitChar sep rest with
      | nil => exact absurd hs (splitChar_ne_nil sep rest)
      | cons s ss =>
        have hlen : ((c :: s) :: ss).length = (splitChar sep rest).length := by
          rw [hs]
          simp
        rw [hlen, ih]
        simp only [List.mem_cons, not_or]
        constructor
        · intro hr
          exact ⟨fun hc => h hc.symm, hr⟩
        · intro hcr
          exact hcr.2

theorem splitChar_getLast_spec (sep : Char) (l : List Char) :
    sep ∉ ((splitChar sep l).getLast?.getD [])
    ∧ (sep ∉ l → (splitChar sep l).getLast?.getD [] = l)
    ∧ (sep ∈ l → ∃ p, l = p ++ sep :: ((splitChar sep l).getLast?.getD [])) := by
  induction l with
  | nil => simp [splitChar]
  | cons c rest ih =>
    by_cases h : c = sep
    · subst h
      have hg : (splitChar c (c :: rest)).getLast? = (splitChar c rest).getLast? := by
        simp only [splitChar, if_pos rfl]
        exact getLast?_cons_of_ne_nil _ (splitChar_ne_nil c rest)
      rw [hg]
      refine ⟨ih.1, ?_, ?_⟩
      · intro hmem; exact absurd (List.mem_cons_self c rest) hmem
      · intro _
        by_cases hr : c ∈ rest
        · obtain ⟨p, hp⟩ := ih.2.2 hr
          exact ⟨c :: p, by rw [List.cons_append, ← hp]⟩
        · exact ⟨[], by rw [List.nil_append, ih.2.1 hr]⟩
    · cases hs : splitChar sep rest with
      | nil => exact absurd hs (splitChar_ne_nil sep rest)
      | cons s ss =>
        have hstep : splitChar sep (c :: rest) = (c :: s) :: ss := by
          simp only [splitChar, if_neg h, hs]
        cases ss with
        | nil =>
          have hnot : sep ∉ rest := by
            rw [← splitChar_length_eq_one_iff sep rest, hs]
            rfl
          have hrest : s = rest := by
            have h2 := ih.2.1 hnot
            rw [hs] at h2
            simpa using h2
          have hG : (splitChar sep (c :: rest)).getLast?.getD [] = c :: s := by
            rw [hstep]
            rfl
          rw [hG]
          refine ⟨?_, ?_, ?_⟩
          · simp only [List.mem_cons, not_or]
            refine ⟨fun hc => h hc.symm, ?_⟩
            rw [hrest]
            exact hnot
          · intro _
            rw [hrest]
          · intro hmem
            simp only [List.mem_cons] at hmem
            rcases hmem with hc | hr
            · exact absurd hc.symm h
            · exact absurd hr hnot
        | cons y t =>
          have hmemr : sep ∈ rest := by
            by_contra hnot
            have := (splitChar_length_eq_one_iff sep rest).mpr hnot
            rw [hs] at this
            simp at this
          have hg : (splitChar sep (c :: rest)).getLast? = (splitChar sep rest).getLast? := by
            rw [hstep, hs]
            exact List.getLast?_cons_cons
          rw [hg]
          refine ⟨ih.1, ?_, ?_⟩
          · intro hmem
            exact absurd hmemr (fun hr => hmem (List.mem_cons_of_mem c hr))
          · intro _
            obtain ⟨p, hp⟩ := ih.2.2 hmemr
            exact ⟨c :: p, by rw [List.cons_append, ← hp]⟩

theorem uniqueAux_sublist {α : Type} [DecidableEq α] (seen l : List α) :
    List.Sublist (uniqueAux seen l) l := by
  induction l generalizing seen with
  | nil => simp [uniqueAux]
  | cons x xs ih =>
    simp only [uniqueAux]
    split
    · exact (ih seen).trans (List.sublist_cons_self x xs)
    · exact (ih (x :: seen)).cons₂ x

theorem mem_uniqueAux {α : Type} [DecidableEq α] {a : α} {seen l : List α} :
    a ∈ uniqueAux seen l ↔ a ∈ l ∧ a ∉ seen := by
  induction l generalizing seen with
  | nil => simp [uniqueAux]
  | cons x xs ih =>
    simp only [uniqueAux]
    split
    · rename_i hx
      rw [ih]
      simp only [List.mem_cons]
      constructor
      · rintro ⟨ha, hs⟩; exact ⟨Or.inr ha, hs⟩
      · rintro ⟨hax, hs⟩
        rcases hax with rfl | ha
        · exact absurd hx hs
        · exact ⟨ha, hs⟩
    · rename_i hx
      simp only [List.mem_cons, ih, List.mem_cons]
      constructor
      · rintro (rfl | ⟨ha, hs⟩)
        · exact ⟨Or.inl rfl, hx⟩
        · exact ⟨Or.inr ha, fun hsn => hs (Or.inr hsn)⟩
      · rintro ⟨hax, hs⟩
        rcases hax with rfl | ha
        · exact Or.inl rfl
        · by_cases hax : a = x
          · exact Or.inl hax
          · exact Or.inr ⟨ha, by simp [hax, hs]⟩

theorem nodup_uniqueAux {α : Type} [DecidableEq α] (seen l : List α) :
    (uniqueAux seen l).Nodup := by
  induction l generalizing seen with
  | nil => simp [uniqueAux]
  | cons x xs ih =>
    simp only [uniqueAux]
    split
    · exact ih seen
    · refine List.nodup_cons.mpr ⟨?_, ih (x :: seen)⟩
      intro hmem
      exact (mem_uniqueAux.mp hmem).2 (List.mem_cons_self x seen)

theorem pairwise_indexOf_uniqueAux {α : Type} [DecidableEq α] (seen l : List α) :
    List.Pairwise (fun a b => l.indexOf a < l.indexOf b) (uniqueAux seen l) := by
  induction l generalizing seen with
  | nil => simp [uniqueAux]
  | cons x xs ih =>
    simp only [uniqueAux]
    split
    · rename_i hxseen
      refine (ih seen).imp_of_mem ?_
      intro a b ha hb hab
      have ha2 := mem_uniqueAux.mp ha
      have hb2 := mem_uniqueAux.mp hb
      have hax : x ≠ a := fun h => ha2.2 (h ▸ hxseen)
      have hbx : x ≠ b := fun h => hb2.2 (h ▸ hxseen)
      rw [List.indexOf_cons_ne _ hax, List.indexOf_cons_ne _ hbx]
      exact Nat.succ_lt_succ hab
    · rename_i hxseen
      refine List.Pairwise.cons ?_ ?_
      · intro b hb
        have hb2 := mem_uniqueAux.mp hb
        have hbx : x ≠ b := by
          intro h
          exact hb2.2 (h ▸ List.mem_cons_self x seen)
        rw [List.indexOf_cons_self, List.indexOf_cons_ne _ hbx]
        exact Nat.succ_pos _
      · refine (ih (x :: seen)).imp_of_mem ?_
        intro a b ha hb hab
        have ha2 := mem_uniqueAux.mp ha
        have hb2 := mem_uniqueAux.mp hb
        have hax : x ≠ a := fun h => ha2.2 (h ▸ List.mem_cons_self x seen)
        have hbx : x ≠ b := fun h => hb2.2 (h ▸ List.mem_cons_self x seen)
        rw [List.indexOf_cons_ne _ hax, List.indexOf_cons_ne _ hbx]
        exact Nat.succ_lt_succ hab

theorem unique_sublist {α : Type} [DecidableEq α] (l : List α) :
    List.Sublist (unique l) l :=
  uniqueAux_sublist [] l

theorem mem_unique {α : Type} [DecidableEq α] {a : α} {l : List α} :
    a ∈ unique l ↔ a ∈ l := by
  rw [unique, mem_uniqueAux]; simp

theorem nodup_unique {α : Type} [DecidableEq α] (l : List α) : (unique l).Nodup :=
  nodup_uniqueAux [] l

theorem pairwise_indexOf_unique {α : Type} [DecidableEq α] (l : List α) :
    List.Pairwise (fun a b => l.indexOf a < l.indexOf b) (unique l) :=
  pairwise_indexOf_uniqueAux [] l

theorem dateLe_refl (a : NaiveDate) : dateLe a a := by simp [dateLe]

theorem dateLe_total (a b : NaiveDate) : dateLe a b ∨ dateLe b a := by
  simp only [dateLe, decide_eq_true_eq]
  omega

theorem dateLe_trans {a b c : NaiveDate} (h1 : dateLe a b) (h2 : dateLe b c) :
    dateLe a c := by
  simp only [dateLe, decide_eq_true_eq] at h1 h2 ⊢
  omega

theorem iterMin_eq_none_iff (l : List NaiveDate) : iterMin l = none ↔ l = [] := by
  cases l with
  | nil => simp [iterMin]
  | cons d rest =>
    simp only [iterMin]
    cases iterMin rest <;> simp

theorem iterMin_spec (l : List NaiveDate) :
    ∀ m, iterMin l = some m → m ∈ l ∧ ∀ x ∈ l, dateLe m x := by
  induction l with
  | nil =>
    intro m h
    simp [iterMin] at h
  | cons d rest ih =>
    intro m h
    cases hr : iterMin rest with
    | none =>
      have hrest : rest = [] := (iterMin_eq_none_iff rest).mp hr
      subst hrest
      simp only [iterMin] at h
      cases h
      refine ⟨List.mem_cons_self d [], ?_⟩
      intro x hx
      simp only [List.mem_singleton] at hx
      subst hx
      exact dateLe_refl _
    | some mr =>
      simp only [iterMin, hr] at h
      obtain ⟨hmem, hlb⟩ := ih mr hr
      by_cases hd : dateLe d mr
      · rw [if_pos hd] at h
        injection h with hm
        subst hm
        refine ⟨List.mem_cons_self d rest, ?_⟩
        intro x hx
        rcases List.mem_cons.mp hx with hxd | hxr
        · subst hxd
          exact dateLe_refl _
        · exact dateLe_trans hd (hlb x hxr)
      · rw [if_neg hd] at h
        injection h with hm
        subst hm
        refine ⟨List.mem_cons_of_mem d hmem, ?_⟩
        intro x hx
        rcases List.mem_cons.mp hx with hxd | hxr
        · subst hxd
          rcases dateLe_total x mr with hxd2 | hdx
          · exact absurd hxd2 hd
          · exact hdx
        · exact hlb x hxr

theorem firstParse_eq_filterMap_head (parse_from_str : String → String → Option NaiveDate)
    (input : String) (fs : List String) :
    OpenlibraryService.firstParse parse_from_str input fs
      = (fs.filterMap (fun f => parse_from_str input f)).head? := by
  induction fs with
  | nil => simp [OpenlibraryService.firstParse]
  | cons f fs ih =>
    simp only [OpenlibraryService.firstParse, List.filterMap_cons]
    cases parse_from_str input f <;> simp [ih]

theorem get_key_eq_getD (key : String) :
    get_key key = ⟨(splitChar '/' key.data).getLast?.getD []⟩ := by
  unfold get_key
  cases hg : (splitChar '/' key.data).getLast? with
  | none => simp
  | some s => simp

theorem get_key_data (key : String) :
    (get_key key).data = (splitChar '/' key.data).getLast?.getD [] := by
  rw [get_key_eq_getD]

/-- Inversion of a successful `details` run: the editions fetch succeeded and
the identifier, publish year, page count and image list of the result are the
documented aggregations of the decoded payloads. -/
theorem details_ok_shape {self : OpenlibraryService}
    {parse_from_str : String → String → Option NaiveDate}
    {to_title_case : String → String} {parse_carousel : String → List CarouselItem}
    {work : OpenlibraryBook} {editions_rsp : Except String OpenlibraryEditionsResponse}
    {author_rsp : String → Except String OpenlibraryAuthorPartialData}
    {partials_rsp : Except String String} {md : MediaDetails}
    (h : OpenlibraryService.details self parse_from_str to_title_case parse_carousel
      (.ok work) editions_rsp author_rsp partials_rsp = .ok md) :
    ∃ editions, editions_rsp = .ok editions
      ∧ md.identifier = get_key work.key
      ∧ md.publish_year = (first_release_date parse_from_str
          (editions.entries.getD [])).map (fun d => d.year)
      ∧ md.specifics = MediaSpecifics.Book { pages := some (num_pages (editions.entries.getD [])) }
      ∧ md.images = self.collect_images work (editions.entries.getD []) := by
  cases editions_rsp with
  | error e => simp [OpenlibraryService.details] at h
  | ok editions =>
    refine ⟨editions, rfl, ?_⟩
    cases hfc : self.fetch_creators author_rsp (work.authors.getD []) with
    | error e => simp [OpenlibraryService.details, hfc] at h
    | ok creators =>
      cases partials_rsp with
      | error e => simp [OpenlibraryService.details, hfc] at h
      | ok html =>
        cases hes : extract_suggestions (parse_carousel html) with
        | none => simp [OpenlibraryService.details, hfc, hes] at h
        | some suggestions =>
          simp only [OpenlibraryService.details, hfc, hes] at h
          rw [RunResult.ok.injEq] at h
          subst h
          exact ⟨rfl, rfl, rfl, rfl⟩

/-! ### Claim theorems -/

/-- C10: `get_key` is total on its public interface: for every input string,
including the empty string and keys ending in a slash, splitting on a slash
yields at least one segment, so the `.unwrap()` receives a value and
`get_key` returns that last (possibly empty) segment without panicking. -/
theorem c10_get_key_total (key : String) :
    splitChar '/' key.data ≠ []
    ∧ ∃ s, (splitChar '/' key.data).getLast? = some s ∧ get_key key = ⟨s⟩ := by
  refine ⟨splitChar_ne_nil _ _, ?_⟩
  cases hg : (splitChar '/' key.data).getLast? with
  | none =>
    rw [List.getLast?_eq_none_iff] at hg
    exact absurd hg (splitChar_ne_nil _ _)
  | some s =>
    refine ⟨s, rfl, ?_⟩
    unfold get_key
    rw [hg]

/-- C6: the canonical identifier produced by `get_key` — and used for the
identifier of a `details` result and of every `search` item — is exactly the
last slash-delimited segment of the raw key, for any depth of prefix path:
it contains no slash, it is the whole key only when the key has no slash, and
when the key has a slash it is the suffix after the final slash and differs
from the full key. -/
theorem c6_identifier_is_last_segment :
    (∀ key : String,
      '/' ∉ (get_key key).data
      ∧ ('/' ∉ key.data → get_key key = key)
      ∧ ('/' ∈ key.data →
          (∃ p, key.data = p ++ '/' :: (get_key key).data) ∧ get_key key ≠ key))
    ∧ (∀ (self : OpenlibraryService) parse_from_str to_title_case parse_carousel
        (work : OpenlibraryBook) editions_rsp author_rsp partials_rsp md,
        OpenlibraryService.details self parse_from_str to_title_case parse_carousel
          (.ok work) editions_rsp author_rsp partials_rsp = .ok md →
        md.identifier = get_key work.key)
    ∧ (∀ (self : OpenlibraryService) page? (rsp : OpenLibrarySearchResponse) r,
        OpenlibraryService.search self page? (.ok rsp) = .ok r →
        r.items.map (fun i => i.identifier) = rsp.docs.map (fun d => get_key d.key)) := by
  refine ⟨?_, ?_, ?_⟩
  · intro key
    obtain ⟨h1, h2, h3⟩ := splitChar_getLast_spec '/' key.data
    rw [← get_key_data] at h1 h2 h3
    refine ⟨h1, ?_, ?_⟩
    · intro hnot
      have := h2 hnot
      exact String.ext this
    · intro hmem
      obtain ⟨p, hp⟩ := h3 hmem
      refine ⟨⟨p, hp⟩, ?_⟩
      intro he
      have hd : (get_key key).data = key.data := by rw [he]
      rw [hp] at hd
      have := congrArg List.length hd
      simp at this
      omega
  · intro self parse_from_str to_title_case parse_carousel work editions_rsp
      author_rsp partials_rsp md h
    exact (details_ok_shape h).choose_spec.2.1
  · intro self page? rsp r h
    simp only [OpenlibraryService.search] at h
    rw [Except.ok.injEq] at h
    subst h
    simp [List.map_map]

/-- C6 witness: at the concrete key `"/works/OL45883W"` the identifier is the
suffix after the final slash and is not the full key; the fixture `details`
run carries exactly that identifier, and the fixture `search` run reduces
every document key the same way. -/
theorem c6_witness :
    get_key "/works/OL45883W" ≠ "/works/OL45883W"
    ∧ (∃ p, "/works/OL45883W".data = p ++ '/' :: (get_key "/works/OL45883W").data)
    ∧ md1.identifier = get_key work0.key
    ∧ r0.items.map (fun i => i.identifier) = rsp0.docs.map (fun d => get_key d.key) := by
  refine ⟨?_, ?_, ?_, ?_⟩
  · exact ((c6_identifier_is_last_segment.1 "/works/OL45883W").2.2 (by decide)).2
  · exact ((c6_identifier_is_last_segment.1 "/works/OL45883W").2.2 (by decide)).1
  · exact c6_identifier_is_last_segment.2.1 svc0 primJan (fun s => s) parse0 work0
      (.ok eds0) afetch0 (.ok "") md1 (by decide)
  · exact c6_identifier_is_last_segment.2.2 svc0 (some 2) rsp0 r0 (by rfl)

/-- C5: for every search call, with 1-based page number defaulting to 1 when
absent, source-reported total `T = rsp.num_found` and configured page size
`L = self.page_limit`, the returned `next_page` is `some (page+1)` exactly
when `T - page * L > 0` and `none` otherwise; an absent page behaves exactly
like page 1. -/
theorem c5_next_page_pagination (self : OpenlibraryService) (page? : Option Int)
    (rsp : OpenLibrarySearchResponse) :
    ∃ r, OpenlibraryService.search self page? (.ok rsp) = .ok r
      ∧ r.details.next_page = (if rsp.num_found - (page?.getD 1) * self.page_limit > 0
          then some (page?.getD 1 + 1) else none)
      ∧ (r.details.next_page = some (page?.getD 1 + 1) ↔
          rsp.num_found - (page?.getD 1) * self.page_limit > 0)
      ∧ OpenlibraryService.search self none (.ok rsp)
          = OpenlibraryService.search self (some 1) (.ok rsp) := by
  refine ⟨_, rfl, rfl, ?_, rfl⟩
  by_cases hc : rsp.num_found - (page?.getD 1) * self.page_limit > 0
  · simp [OpenlibraryService.search, hc]
  · simp [OpenlibraryService.search, hc]

/-- C1 counterexample: with every other fetch succeeding, a transport failure
on the related-works fragment fetch makes `details` return that failure,
while the very same inputs with a successful fragment fetch produce a
successful result — the claimed downgrade to an empty suggestions list does
not happen. -/
theorem c1_counterexample :
    OpenlibraryService.details svc0 primJan (fun s => s) parse0 (.ok work0) (.ok eds0)
        afetch0 (.error "network unreachable") = RunResult.err "network unreachable"
    ∧ (OpenlibraryService.details svc0 primJan (fun s => s) parse0 (.ok work0) (.ok eds0)
        afetch0 (.ok "")).isOkB = true := by
  exact ⟨rfl, rfl⟩

/-- C1 (amended): a failure to fetch or decode the related-works HTML
fragment is propagated — whenever the work and editions fetches succeeded and
the author fan-out succeeded, `details` returns the fragment error itself,
not a success with empty suggestions. -/
theorem c1_fragment_failure_propagates (self : OpenlibraryService)
    (parse_from_str : String → String → Option NaiveDate)
    (to_title_case : String → String) (parse_carousel : String → List CarouselItem)
    (work : OpenlibraryBook) (editions : OpenlibraryEditionsResponse)
    (author_rsp : String → Except String OpenlibraryAuthorPartialData) (e : String)
    (h : ∃ cs, self.fetch_creators author_rsp (work.authors.getD []) = .ok cs) :
    OpenlibraryService.details self parse_from_str to_title_case parse_carousel
      (.ok work) (.ok editions) author_rsp (.error e) = RunResult.err e := by
  obtain ⟨cs, hcs⟩ := h
  simp [OpenlibraryService.details, hcs]

/-- C1 witness: the amended theorem applied to the concrete fixtures. -/
theorem c1_witness :
    OpenlibraryService.details svc0 primJan (fun s => s) parse0 (.ok work0) (.ok eds0)
      afetch0 (.error "boom") = RunResult.err "boom" :=
  c1_fragment_failure_propagates svc0 primJan (fun s => s) parse0 work0 eds0 afetch0
    "boom" ⟨[], rfl⟩

/-- C2: concrete behavior of the related-works extractor.  A fragment with no
matching carousel items yields an empty suggestion list, and an item whose
image tag is missing is skipped silently; but an item whose anchor (`a[href]`)
is missing makes the extraction panic (the `.unwrap()` at openlibrary.rs line
263) instead of being skipped, and that panic propagates into the `details`
call. -/
theorem c2_extractor_panics_on_missing_anchor :
    extract_suggestions [{ href := none, alt := some "Dune by Frank Herbert", src := none }]
      = none
    ∧ extract_suggestions [] = some []
    ∧ extract_suggestions [{ href := some "/works/OL893415W", alt := none, src := none }]
      = some []
    ∧ OpenlibraryService.details svc0 primJan (fun s => s)
        (fun _ => [{ href := none, alt := some "Dune by Frank Herbert", src := none }])
        (.ok work0) (.ok eds0) afetch0 (.ok "fragment") = RunResult.panicked := by
  exact ⟨rfl, rfl, rfl, rfl⟩

/-- C3: `parse_date` tries the ordered format list (which contains the
`"%b %d, %Y"` and bare `"%Y"` patterns) and returns the first successful
parse, absent otherwise; `first_release_date` is none exactly when no edition
date parses, and otherwise is a parsed date that is a lower bound of all
parsed dates (unparsable strings are simply excluded); the publish year of a
successful `details` run is the year of that minimum. -/
theorem c3_parse_date_ordered_and_min_release
    (parse_from_str : String → String → Option NaiveDate) :
    ("%b %d, %Y" ∈ OpenlibraryService.dateFormats ∧ "%Y" ∈ OpenlibraryService.dateFormats)
    ∧ (∀ input, OpenlibraryService.parse_date parse_from_str input
        = (OpenlibraryService.dateFormats.filterMap (fun f => parse_from_str input f)).head?)
    ∧ (∀ entries : List OpenlibraryEdition,
        (first_release_date parse_from_str entries = none ↔
          (entries.filterMap (fun f => f.publish_date)).filterMap
            (OpenlibraryService.parse_date parse_from_str) = [])
        ∧ ∀ m, first_release_date parse_from_str entries = some m →
            m ∈ (entries.filterMap (fun f => f.publish_date)).filterMap
              (OpenlibraryService.parse_date parse_from_str)
            ∧ ∀ x ∈ (entries.filterMap (fun f => f.publish_date)).filterMap
                (OpenlibraryService.parse_date parse_from_str), dateLe m x)
    ∧ (∀ (self : OpenlibraryService) to_title_case parse_carousel
        (work : OpenlibraryBook) editions_rsp author_rsp partials_rsp md,
        OpenlibraryService.details self parse_from_str to_title_case parse_carousel
          (.ok work) editions_rsp author_rsp partials_rsp = .ok md →
        ∃ editions, editions_rsp = .ok editions
          ∧ md.publish_year = (first_release_date parse_from_str
              (editions.entries.getD [])).map (fun d => d.year)) := by
  refine ⟨⟨by decide, by decide⟩, ?_, ?_, ?_⟩
  · intro input
    exact firstParse_eq_filterMap_head parse_from_str input OpenlibraryService.dateFormats
  · intro entries
    exact ⟨iterMin_eq_none_iff _, fun m h => iterMin_spec _ m h⟩
  · intro self to_title_case parse_carousel work editions_rsp author_rsp partials_rsp md h
    obtain ⟨editions, he, _, hy, _, _⟩ := details_ok_shape h
    exact ⟨editions, he, hy⟩

/-- C3 witness: on the fixture editions (dates `"Jan 1, 1950"` and `"1951"`,
with a primitive that parses only the first) the minimum parsed date is
January 1 1950 and the fixture `details` run reports publish year 1950. -/
theorem c3_witness :
    ({ year := 1950, month := 1, day := 1 } : NaiveDate) ∈
      ((eds0.entries.getD []).filterMap (fun f => f.publish_date)).filterMap
        (OpenlibraryService.parse_date primJan)
    ∧ (∃ editions, (Except.ok eds0 : Except String OpenlibraryEditionsResponse)
          = .ok editions
        ∧ md1.publish_year = (first_release_date primJan
            (editions.entries.getD [])).map (fun d => d.year)) := by
  constructor
  · exact (((c3_parse_date_ordered_and_min_release primJan).2.2.1
      (eds0.entries.getD [])).2 { year := 1950, month := 1, day := 1 } (by decide)).1
  · exact (c3_parse_date_ordered_and_min_release primJan).2.2.2 svc0 (fun s => s)
      parse0 work0 (.ok eds0) afetch0 (.ok "") md1 (by decide)

/-- C4: the page count computed by `details` is the truncating integer mean
over exactly the editions that report a page count, and 0 when none do. -/
theorem c4_pages_truncated_mean :
    (∀ entries : List OpenlibraryEdition,
      (entries.filterMap (fun f => f.number_of_pages) = [] → num_pages entries = 0)
      ∧ (entries.filterMap (fun f => f.number_of_pages) ≠ [] →
          num_pages entries
            = Int.tdiv (entries.filterMap (fun f => f.number_of_pages)).sum
                ((entries.filterMap (fun f => f.number_of_pages)).length : Int)))
    ∧ (∀ (self : OpenlibraryService) parse_from_str to_title_case parse_carousel
        (work : OpenlibraryBook) editions_rsp author_rsp partials_rsp md,
        OpenlibraryService.details self parse_from_str to_title_case parse_carousel
          (.ok work) editions_rsp author_rsp partials_rsp = .ok md →
        ∃ editions, editions_rsp = .ok editions
          ∧ md.specifics = MediaSpecifics.Book
              { pages := some (num_pages (editions.entries.getD [])) }) := by
  constructor
  · intro entries
    constructor
    · intro h
      simp [num_pages, h]
    · intro h
      simp [num_pages, List.isEmpty_iff, h]
  · intro self parse_from_str to_title_case parse_carousel work editions_rsp
      author_rsp partials_rsp md h
    obtain ⟨editions, he, _, _, hs, _⟩ := details_ok_shape h
    exact ⟨editions, he, hs⟩

/-- C4 witness: the fixture editions report 300 and 320 pages, the computed
mean is 310, and the fixture `details` run carries exactly that page count. -/
theorem c4_witness :
    num_pages (eds0.entries.getD []) = 310
    ∧ (∃ editions, (Except.ok eds0 : Except String OpenlibraryEditionsResponse)
          = .ok editions
        ∧ md1.specifics = MediaSpecifics.Book
            { pages := some (num_pages (editions.entries.getD [])) }) := by
  constructor
  · exact ((c4_pages_truncated_mean.1 (eds0.entries.getD [])).2 (by decide)).trans (by decide)
  · exact c4_pages_truncated_mean.2 svc0 primJan (fun s => s) parse0 work0 (.ok eds0)
      afetch0 (.ok "") md1 (by decide)

theorem lot_of_mem_image_candidates {self : OpenlibraryService} {data : OpenlibraryBook}
    {entries : List OpenlibraryEdition} {m : MetadataImage}
    (h : m ∈ OpenlibraryService.image_candidates self data entries) :
    m.lot = MetadataImageLot.Poster := by
  simp only [OpenlibraryService.image_candidates, List.mem_map] at h
  obtain ⟨c, _, rfl⟩ := h
  rfl

/-- C7: the canonical image list of `details` has no two entries with an
identical resolved URL, is a subsequence of the positive-filtered candidate
list ordered by first occurrence (so first-seen order is preserved), contains
exactly the candidate images, and every entry comes from a strictly positive
cover identifier of the work record or one of its editions. -/
theorem c7_images_dedup_order_positive (self : OpenlibraryService)
    (data : OpenlibraryBook) (entries : List OpenlibraryEdition) :
    List.Pairwise (fun a b => a.url ≠ b.url) (self.collect_images data entries)
    ∧ List.Sublist (self.collect_images data entries)
        (self.image_candidates data entries)
    ∧ (∀ m, m ∈ self.collect_images data entries ↔
        m ∈ self.image_candidates data entries)
    ∧ List.Pairwise (fun a b => (self.image_candidates data entries).indexOf a
        < (self.image_candidates data entries).indexOf b)
        (self.collect_images data entries)
    ∧ (∀ m ∈ self.collect_images data entries, ∃ c, 0 < c
        ∧ (c ∈ data.covers.getD [] ∨ ∃ e ∈ entries, c ∈ e.covers.getD [])
        ∧ m = { url := StoredUrl.Url (self.get_book_cover_image_url c),
                lot := MetadataImageLot.Poster }) := by
  refine ⟨?_, unique_sublist _, fun m => mem_unique, pairwise_indexOf_unique _, ?_⟩
  · have hnd : (self.collect_images data entries).Nodup := nodup_unique _
    refine hnd.imp_of_mem ?_
    intro a b ha hb hab
    intro hurl
    apply hab
    have ha2 := lot_of_mem_image_candidates (mem_unique.mp ha)
    have hb2 := lot_of_mem_image_candidates (mem_unique.mp hb)
    obtain ⟨au, al⟩ := a
    obtain ⟨bu, bl⟩ := b
    have hu : au = bu := hurl
    have hl : al = bl := by
      rw [show al = MetadataImageLot.Poster from ha2,
        show bl = MetadataImageLot.Poster from hb2]
    rw [hu, hl]
  · intro m hm
    have hc := mem_unique.mp hm
    simp only [OpenlibraryService.image_candidates, List.mem_map, List.mem_filter] at hc
    obtain ⟨c, ⟨hcmem, hcpos⟩, rfl⟩ := hc
    refine ⟨c, of_decide_eq_true hcpos, ?_, rfl⟩
    rcases List.mem_append.mp hcmem with h1 | h2
    · exact Or.inl h1
    · right
      exact List.mem_flatMap.mp h2

/-- C7 witness: in the deduplicated fixture image list, the cover image with
identifier 5 comes from a positive cover identifier of the work record. -/
theorem c7_witness :
    ∃ c, 0 < c
      ∧ (c ∈ work0.covers.getD []
          ∨ ∃ e ∈ (eds0.entries.getD []), c ∈ e.covers.getD [])
      ∧ ({ url := StoredUrl.Url "https://covers.openlibrary.org/b/id/5-M.jpg?default=false",
           lot := MetadataImageLot.Poster } : MetadataImage)
          = { url := StoredUrl.Url (svc0.get_book_cover_image_url c),
              lot := MetadataImageLot.Poster } :=
  (c7_images_dedup_order_positive svc0 work0 (eds0.entries.getD [])).2.2.2.2 _ (by decide)

/-- C8: the author reference decoder accepts either a bare key or a
structured object with key and optional role, and the details fan-out turns
it into the pair (key, role), the role defaulting to `"Author"` whenever the
source does not specify one; the resulting creator carries exactly that
role. -/
theorem c8_author_decode (k : String) :
    author_key_role (.Flat { key := k }) = (k, "Author")
    ∧ (∀ r, author_key_role
        (.Nested { author := { key := k }, role := some { key := r } }) = (k, r))
    ∧ author_key_role (.Nested { author := { key := k }, role := none }) = (k, "Author")
    ∧ (∀ (self : OpenlibraryService) (name : String) (photos : Option (List Int))
        (a : OpenlibraryAuthorResponse),
        self.fetch_creators (fun _ => .ok { name := name, photos := photos }) [a]
          = .ok [{ name := name, role := (author_key_role a).2,
                   image := (((photos.getD []).filter (fun c => decide (0 < c))).head?).map
                     (fun i => self.get_author_cover_image_url i) }]) := by
  refine ⟨rfl, fun r => rfl, rfl, ?_⟩
  intro self name photos a
  cases a <;> rfl

/-- C9: `id_from_isbn` returns the canonical identifier of the first
associated work; an absent mapping (empty works list) or any transport
failure yields `none` — a plain miss, never an error (the return type has no
failure channel at all). -/
theorem c9_id_from_isbn_miss_not_error :
    (∀ e : String, OpenlibraryService.id_from_isbn (.error e) = none)
    ∧ (∀ d : OpenlibraryIsbnResponse, d.works = [] →
        OpenlibraryService.id_from_isbn (.ok d) = none)
    ∧ (∀ (k : OpenlibraryKey) (rest : List OpenlibraryKey) (d : OpenlibraryIsbnResponse),
        d.works = k :: rest →
        OpenlibraryService.id_from_isbn (.ok d) = some (get_key k.key)) := by
  refine ⟨fun e => rfl, ?_, ?_⟩
  · intro d h
    simp [OpenlibraryService.id_from_isbn, h]
  · intro k rest d h
    simp [OpenlibraryService.id_from_isbn, h]

/-- C9 witness: a concrete response mapping an ISBN to one work yields the
canonical identifier of that work. -/
theorem c9_witness :
    OpenlibraryService.id_from_isbn (.ok { works := [{ key := "/works/OL45883W" }] })
      = some "OL45883W" :=
  (c9_id_from_isbn_miss_not_error.2.2 { key := "/works/OL45883W" } []
    { works := [{ key := "/works/OL45883W" }] } rfl).trans (by decide)
